import Mathlib

/-!
Verification development for the `hono-wide-logger` repository.

The development shallowly embeds the core of the package:
  * `packages/wide-logger/src/middleware.ts` (`wideLogger`),
  * `packages/wide-logger/src/sampling.ts` (`defaultSampling`),
  * the per-request context API (`addContext`, `addError`) those files define,
over an explicit model of the JavaScript values involved (flat string-keyed
objects, truthiness of strings and numbers, object spread).  Platform effects
(`Date.now()`, `Math.random()`, `crypto.randomUUID()`, header access, the
logging and storage sinks) are injected as explicit parameters, and the
middleware runs as a pure function from those inputs to a trace of its
observable actions (response header write, logger calls, storage calls,
propagated exception).
-/

namespace HonoWideLogger

/-- A JavaScript value as it appears in context-category slots, error
metadata, and the serialized event: strings, booleans, numbers, and
`undefined`.  (Context data in the source is schema-free; the claims under
verification only need the values to form some fixed type.) -/
inductive JVal : Type where
  | vStr : String → JVal
  | vBool : Bool → JVal
  | vNum : Int → JVal
  | vUndef : JVal
  deriving DecidableEq, Repr

/-- A JavaScript object, modelled as an insertion-ordered association list
from keys to values (JS objects have unique keys; lookup takes the first
match, which coincides for unique-key lists). -/
abbrev Obj : Type := List (String × JVal)

/-- Property lookup on an object: first binding for the key, if any. -/
def olookup (o : Obj) (k : String) : Option JVal :=
  match o with
  | [] => none
  | (k₁, v) :: rest => if k₁ = k then some v else olookup rest k

/-- First-of-two option choice (`a ?? b` at the option level); used to state
lookup results of merged objects. -/
def oalt (a b : Option JVal) : Option JVal :=
  match a with
  | some v => some v
  | none => b

/-- JavaScript object spread `\x7b...a, ...b\x7d`: keys of `a` in their
original order with values overridden by `b` where both have the key,
followed by the keys only `b` has. -/
def spread (a b : Obj) : Obj :=
  a.map (fun p => match olookup b p.1 with | some v => (p.1, v) | none => p)
    ++ b.filter (fun p => (olookup a p.1).isNone)

theorem olookup_append (x y : Obj) (k : String) :
    olookup (x ++ y) k = oalt (olookup x k) (olookup y k) := by
  induction x with
  | nil => simp [olookup, oalt]
  | cons hd tl ih =>
      obtain ⟨k₁, v⟩ := hd
      by_cases h : k₁ = k
      · simp [olookup, h, oalt]
      · simpa [olookup, h] using ih

theorem olookup_map_override (a b : Obj) (k : String) :
    olookup (a.map (fun p => match olookup b p.1 with
        | some v => (p.1, v) | none => p)) k =
      match olookup a k with
      | some v => some ((olookup b k).getD v)
      | none => none := by
  induction a with
  | nil => simp [olookup]
  | cons hd tl ih =>
      obtain ⟨k₁, v⟩ := hd
      by_cases h : k₁ = k
      · subst h
        cases hb : olookup b k₁ <;> simp [olookup, hb]
      · cases hb : olookup b k₁ <;> simp [olookup, h, hb] <;> exact ih

theorem olookup_filter_of_none (a b : Obj) (k : String)
    (h : olookup a k = none) :
    olookup (b.filter (fun p => (olookup a p.1).isNone)) k = olookup b k := by
  induction b with
  | nil => simp
  | cons hd tl ih =>
      obtain ⟨k₁, v⟩ := hd
      by_cases hk : k₁ = k
      · subst hk
        simp [List.filter, h, olookup]
      · cases ha : olookup a k₁ <;>
          simp [List.filter, ha, olookup, hk, ih]

theorem olookup_filter_of_some (a b : Obj) (k : String) (w : JVal)
    (h : olookup a k = some w) :
    olookup (b.filter (fun p => (olookup a p.1).isNone)) k = none := by
  induction b with
  | nil => simp [olookup]
  | cons hd tl ih =>
      obtain ⟨k₁, v⟩ := hd
      by_cases hk : k₁ = k
      · subst hk
        simp [List.filter, h, ih]
      · cases ha : olookup a k₁ <;>
          simp [List.filter, ha, olookup, hk, ih]

/-- Key lemma: lookup in a spread-merged object prefers the right operand
and falls back to the left one (`\x7b...a, ...b\x7d[k] = b[k] ?? a[k]`). -/
theorem olookup_spread (a b : Obj) (k : String) :
    olookup (spread a b) k = oalt (olookup b k) (olookup a k) := by
  unfold spread
  rw [olookup_append, olookup_map_override]
  cases ha : olookup a k with
  | none =>
      rw [olookup_filter_of_none a b k ha]
      cases hb : olookup b k <;> simp [oalt]
  | some v =>
      rw [olookup_filter_of_some a b k v ha]
      cases hb : olookup b k <;> simp [oalt, hb]

theorem spread_nil_left (b : Obj) : spread [] b = b := by
  unfold spread
  simp [olookup]

theorem spread_nil_right (a : Obj) : spread a [] = a := by
  unfold spread
  simp [olookup]

/-! ## JavaScript truthiness helpers

The source relies on `||` and `??` defaulting; `||` treats the empty string
and the number `0` as absent, `??` only `null`/`undefined`. -/

/-- `a || b` for an optionally-present string: an absent or empty string
falls through to the default. -/
def jsOrS (a : Option String) (b : String) : String :=
  match a with
  | some s => if s = ("") then b else s
  | none => b

/-- `a || b` where both sides are optionally-present strings (used for
`x-forwarded-for || x-real-ip`). -/
def jsOrOpt (a b : Option String) : Option String :=
  match a with
  | some s => if s = ("") then b else some s
  | none => b

/-- `n || d` for a number already defaulted to a `Nat`: `0` is falsy. -/
def jsOrNat (n d : Nat) : Nat := if n = 0 then d else n

/-- `q || d` for a rate: `0` is falsy. -/
def jsOrRat (q d : ℚ) : ℚ := if q = 0 then d else q

/-! ## The wide event and the context/error API -/

/-- The four context categories accepted by `addContext`. -/
inductive Category : Type where
  | user | business | infra | service
  deriving DecidableEq, Repr

/-- The per-request wide event (`WideEvent` in `types.ts`), restricted to
the fields the middleware actually writes.  Optional fields are `Option`;
an `Option.none` is a key the JS object does not carry (or carries as
`undefined`).  The categorized slots and the error substructure are open
string-keyed objects. -/
structure WideEvent : Type where
  request_id : String
  timestamp : String
  method : String
  path : String
  client_ip : Option String
  user_agent : Option String
  content_type : Option String
  status_code : Option Nat
  duration_ms : Option Nat
  user : Option Obj
  business : Option Obj
  infra : Option Obj
  service : Option Obj
  error : Option Obj
  deriving DecidableEq, Repr

/-- The categorized slot selected by a category name. -/
def WideEvent.slot (e : WideEvent) : Category → Option Obj
  | .user => e.user
  | .business => e.business
  | .infra => e.infra
  | .service => e.service

/-- `addContext(category, data)` from the middleware's context API:
`event[category] = \x7b ...event[category], ...data \x7d` (spread of an
absent slot spreads the empty object). -/
def addContext (e : WideEvent) (cat : Category) (data : Obj) : WideEvent :=
  match cat with
  | .user => { e with user := some (spread (e.user.getD []) data) }
  | .business => { e with business := some (spread (e.business.getD []) data) }
  | .infra => { e with infra := some (spread (e.infra.getD []) data) }
  | .service => { e with service := some (spread (e.service.getD []) data) }

/-- A JavaScript `Error` object as the middleware reads it: `name` and
`message` always exist; `code`, `retriable` and `stack` are extra
properties that may be absent. -/
structure JsError : Type where
  name : String
  message : String
  code : Option String
  retriable : Option Bool
  stack : Option String
  deriving DecidableEq, Repr

/-- Decidable equality of middleware outcomes (`Except` carries the
propagated error). -/
instance : DecidableEq (Except JsError Unit) :=
  fun a b =>
    match a, b with
    | .ok x, .ok y => isTrue (by cases x; cases y; rfl)
    | .error e, .error f =>
        if h : e = f then isTrue (by rw [h])
        else isFalse (fun hc => h (by cases hc; rfl))
    | .ok _, .error _ => isFalse (fun hc => Except.noConfusion hc)
    | .error _, .ok _ => isFalse (fun hc => Except.noConfusion hc)

/-- The five derived entries of the error substructure built by `addError`:
`type = error.name`, `code = error.code || "UNKNOWN"`,
`message = error.message`, `retriable = error.retriable ?? false`,
`stack = NODE_ENV === "development" ? error.stack : undefined`. -/
def errorBase (dev : Bool) (err : JsError) : Obj :=
  [(("type"), JVal.vStr err.name),
   (("code"), JVal.vStr (jsOrS err.code ("UNKNOWN"))),
   (("message"), JVal.vStr err.message),
   (("retriable"), JVal.vBool (err.retriable.getD false)),
   (("stack"),
     if dev then
       (match err.stack with | some s => JVal.vStr s | none => JVal.vUndef)
     else JVal.vUndef)]

/-- `addError(error, metadata?)` from the middleware's context API: the
event's error slot becomes the object literal of the five derived entries
with the caller metadata spread on top. -/
def setError (dev : Bool) (e : WideEvent) (err : JsError)
    (metadata : Option Obj) : WideEvent :=
  { e with error := some (spread (errorBase dev err) (metadata.getD [])) }

/-! ## Sampling (`sampling.ts`) -/

/-- The options record `defaultSampling` receives from the middleware. -/
structure SamplingOptions : Type where
  slowThresholdMs : Nat
  sampleRate : ℚ
  errorCode : Option Nat
  deriving DecidableEq, Repr

/-- `options?.errorCode || 500`. -/
def effErrorCode (o : Option Nat) : Nat :=
  match o with
  | some c => if c = 0 then 500 else c
  | none => 500

/-- Truthiness-guarded status test
`event.status_code && event.status_code >= eff`. -/
def statusTruthyGe (sc : Option Nat) (eff : Nat) : Bool :=
  match sc with
  | some s => decide (s ≠ 0) && decide (eff ≤ s)
  | none => false

/-- Truthiness-guarded slowness test
`event.duration_ms && event.duration_ms > slowThresholdMs`. -/
def durTruthyGt (dm : Option Nat) (slow : Nat) : Bool :=
  match dm with
  | some d => decide (d ≠ 0) && decide (slow < d)
  | none => false

/-- `defaultSampling` from `sampling.ts`; `draw` is the injected result of
`Math.random()`, a uniform value in `[0,1)`. -/
def defaultSampling (event : WideEvent) (options : SamplingOptions)
    (draw : ℚ) : Bool :=
  if statusTruthyGe event.status_code (effErrorCode options.errorCode) then true
  else if event.error.isSome then true
  else if durTruthyGt event.duration_ms options.slowThresholdMs then true
  else decide (draw < options.sampleRate)

/-! ## Serialization

The middleware emits `JSON.stringify(event)`.  `JSON.stringify` is a
platform builtin, modelled here: strings are quoted with control characters
escaped, keys whose value is `undefined` are skipped, and the event's
fields are serialized in declaration order (the builtin follows property
insertion order; no claim depends on the order). -/

/-- Escape of one character inside a JSON string literal. -/
def escChars (c : Char) : List Char :=
  if c = '"' then ['\\', '"']
  else if c = '\\' then ['\\', '\\']
  else if c = '\n' then ['\\', 'n']
  else if c = '\r' then ['\\', 'r']
  else if c = '\t' then ['\\', 't']
  else [c]

/-- A JSON string literal (quoted, escaped), as characters. -/
def jsonStr (s : String) : List Char :=
  '"' :: (s.data.map escChars).flatten ++ ['"']

/-- Decimal digit character. -/
def digitChar (d : Nat) : Char :=
  if d = 0 then '0' else if d = 1 then '1' else if d = 2 then '2'
  else if d = 3 then '3' else if d = 4 then '4' else if d = 5 then '5'
  else if d = 6 then '6' else if d = 7 then '7' else if d = 8 then '8'
  else '9'

/-- Decimal representation of a natural number, as characters. -/
def natChars (n : Nat) : List Char :=
  if _h : n < 10 then [digitChar n]
  else natChars (n / 10) ++ [digitChar (n % 10)]
  termination_by n
  decreasing_by exact Nat.div_lt_self (by omega) (by omega)

/-- Decimal representation of an integer, as characters. -/
def intChars : Int → List Char
  | .ofNat n => natChars n
  | .negSucc n => '-' :: natChars (n + 1)

/-- JSON serialization of one atomic value (`undefined` prints as `null`
when it survives to this point; inside objects it is skipped before). -/
def jvalChars : JVal → List Char
  | .vStr s => jsonStr s
  | .vBool true => ['t', 'r', 'u', 'e']
  | .vBool false => ['f', 'a', 'l', 's', 'e']
  | .vNum i => intChars i
  | .vUndef => ['n', 'u', 'l', 'l']

/-- Comma-separated concatenation. -/
def commaJoin : List (List Char) → List Char
  | [] => []
  | [x] => x
  | x :: xs => x ++ ',' :: commaJoin xs

/-- One `"key":value` entry. -/
def kvChars (k : String) (v : List Char) : List Char :=
  jsonStr k ++ ':' :: v

/-- JSON serialization of a flat object; entries with `undefined` values
are skipped, as `JSON.stringify` does. -/
def objChars (o : Obj) : List Char :=
  Char.ofNat 123 ::
    commaJoin ((o.filter (fun p => decide (p.2 ≠ JVal.vUndef))).map
      (fun p => kvChars p.1 (jvalChars p.2)))
    ++ [Char.ofNat 125]

/-- Entry list contributed by an optional string field. -/
def optStrField (k : String) : Option String → List (List Char)
  | some s => [kvChars k (jsonStr s)]
  | none => []

/-- Entry list contributed by an optional numeric field. -/
def optNatField (k : String) : Option Nat → List (List Char)
  | some n => [kvChars k (natChars n)]
  | none => []

/-- Entry list contributed by an optional object-valued field. -/
def optObjField (k : String) : Option Obj → List (List Char)
  | some o => [kvChars k (objChars o)]
  | none => []

/-- The serialized entries of a wide event, in field order. -/
def eventFields (e : WideEvent) : List (List Char) :=
  [kvChars ("request_id") (jsonStr e.request_id),
   kvChars ("timestamp") (jsonStr e.timestamp),
   kvChars ("method") (jsonStr e.method),
   kvChars ("path") (jsonStr e.path)]
  ++ optStrField ("client_ip") e.client_ip
  ++ optStrField ("user_agent") e.user_agent
  ++ optStrField ("content_type") e.content_type
  ++ optNatField ("status_code") e.status_code
  ++ optNatField ("duration_ms") e.duration_ms
  ++ optObjField ("user") e.user
  ++ optObjField ("business") e.business
  ++ optObjField ("infra") e.infra
  ++ optObjField ("service") e.service
  ++ optObjField ("error") e.error

/-- `JSON.stringify(event)`: the single line the middleware hands to the
logging sink. -/
def stringifyEvent (e : WideEvent) : String :=
  String.mk (Char.ofNat 123 :: commaJoin (eventFields e) ++ [Char.ofNat 125])

/-! ### The serialized event is a single line -/

theorem escChars_no_newline (c : Char) : '\n' ∉ escChars c := by
  unfold escChars
  split_ifs with h1 h2 h3 h4 h5
  · decide
  · decide
  · decide
  · decide
  · decide
  · simp only [List.mem_singleton]
    exact fun hc => h3 hc.symm

theorem jsonStr_no_newline (s : String) : '\n' ∉ jsonStr s := by
  unfold jsonStr
  intro hmem
  rcases List.mem_cons.mp hmem with h | h
  · exact absurd h.symm (by decide)
  · rcases List.mem_append.mp h with h | h
    · rcases List.mem_flatten.mp h with ⟨l, hl, hc⟩
      rcases List.mem_map.mp hl with ⟨c, _, rfl⟩
      exact escChars_no_newline c hc
    · simp_all

theorem digitChar_no_newline (d : Nat) : digitChar d ≠ '\n' := by
  unfold digitChar
  split_ifs <;> decide

theorem natChars_no_newline (n : Nat) : '\n' ∉ natChars n := by
  induction n using Nat.strong_induction_on with
  | _ n ih =>
      rw [natChars]
      split_ifs with h
      · simpa using (digitChar_no_newline n).symm
      · intro hmem
        rcases List.mem_append.mp hmem with hm | hm
        · exact ih (n / 10) (Nat.div_lt_self (by omega) (by omega)) hm
        · have : '\n' = digitChar (n % 10) := by simpa using hm
          exact digitChar_no_newline (n % 10) this.symm

theorem intChars_no_newline (i : Int) : '\n' ∉ intChars i := by
  cases i with
  | ofNat n => simpa [intChars] using natChars_no_newline n
  | negSucc n =>
      intro hmem
      rcases List.mem_cons.mp hmem with h | h
      · exact absurd h.symm (by decide)
      · exact natChars_no_newline (n + 1) h

theorem jvalChars_no_newline (v : JVal) : '\n' ∉ jvalChars v := by
  cases v with
  | vStr s => exact jsonStr_no_newline s
  | vBool b => cases b <;> decide
  | vNum i => exact intChars_no_newline i
  | vUndef => decide

theorem commaJoin_mem (L : List (List Char)) (c : Char)
    (h : c ∈ commaJoin L) : c = ',' ∨ ∃ l ∈ L, c ∈ l := by
  induction L with
  | nil => simp [commaJoin] at h
  | cons x xs ih =>
      cases xs with
      | nil =>
          right
          exact ⟨x, by simp, by simpa [commaJoin] using h⟩
      | cons y ys =>
          have hrw : commaJoin (x :: y :: ys) = x ++ ',' :: commaJoin (y :: ys) := rfl
          rw [hrw] at h
          rcases List.mem_append.mp h with hm | hm
          · exact Or.inr ⟨x, by simp, hm⟩
          · rcases List.mem_cons.mp hm with hm | hm
            · exact Or.inl hm
            · rcases ih hm with hc | ⟨l, hl, hc⟩
              · exact Or.inl hc
              · exact Or.inr ⟨l, List.mem_cons_of_mem _ hl, hc⟩

theorem kvChars_no_newline (k : String) (v : List Char)
    (hv : '\n' ∉ v) : '\n' ∉ kvChars k v := by
  unfold kvChars
  intro hmem
  rcases List.mem_append.mp hmem with h | h
  · exact jsonStr_no_newline k h
  · rcases List.mem_cons.mp h with h | h
    · exact absurd h.symm (by decide)
    · exact hv h

theorem objChars_no_newline (o : Obj) : '\n' ∉ objChars o := by
  unfold objChars
  intro hmem
  rcases List.mem_cons.mp hmem with h | h
  · exact absurd h.symm (by decide)
  · rcases List.mem_append.mp h with h | h
    · rcases commaJoin_mem _ _ h with h | ⟨l, hl, hc⟩
      · exact absurd h (by decide)
      · rcases List.mem_map.mp hl with ⟨p, _, rfl⟩
        exact kvChars_no_newline _ _ (jvalChars_no_newline p.2) hc
    · simp_all

theorem optStrField_no_newline (k : String) (x : Option String)
    (l : List Char) (hl : l ∈ optStrField k x) : '\n' ∉ l := by
  cases x with
  | none => simp [optStrField] at hl
  | some s =>
      have : l = kvChars k (jsonStr s) := by simpa [optStrField] using hl
      subst this
      exact kvChars_no_newline _ _ (jsonStr_no_newline s)

theorem optNatField_no_newline (k : String) (x : Option Nat)
    (l : List Char) (hl : l ∈ optNatField k x) : '\n' ∉ l := by
  cases x with
  | none => simp [optNatField] at hl
  | some n =>
      have : l = kvChars k (natChars n) := by simpa [optNatField] using hl
      subst this
      exact kvChars_no_newline _ _ (natChars_no_newline n)

theorem optObjField_no_newline (k : String) (x : Option Obj)
    (l : List Char) (hl : l ∈ optObjField k x) : '\n' ∉ l := by
  cases x with
  | none => simp [optObjField] at hl
  | some o =>
      have : l = kvChars k (objChars o) := by simpa [optObjField] using hl
      subst this
      exact kvChars_no_newline _ _ (objChars_no_newline o)

theorem eventFields_no_newline (e : WideEvent) :
    ∀ l ∈ eventFields e, '\n' ∉ l := by
  unfold eventFields
  simp only [List.forall_mem_append]
  repeat' apply And.intro
  · intro l hl
    rcases List.mem_cons.mp hl with h | h
    · exact h ▸ kvChars_no_newline _ _ (jsonStr_no_newline _)
    rcases List.mem_cons.mp h with h | h
    · exact h ▸ kvChars_no_newline _ _ (jsonStr_no_newline _)
    rcases List.mem_cons.mp h with h | h
    · exact h ▸ kvChars_no_newline _ _ (jsonStr_no_newline _)
    · have h4 : l = kvChars ("path") (jsonStr e.path) := by simpa using h
      exact h4 ▸ kvChars_no_newline _ _ (jsonStr_no_newline _)
  · exact fun l hl => optStrField_no_newline _ _ _ hl
  · exact fun l hl => optStrField_no_newline _ _ _ hl
  · exact fun l hl => optStrField_no_newline _ _ _ hl
  · exact fun l hl => optNatField_no_newline _ _ _ hl
  · exact fun l hl => optNatField_no_newline _ _ _ hl
  · exact fun l hl => optObjField_no_newline _ _ _ hl
  · exact fun l hl => optObjField_no_newline _ _ _ hl
  · exact fun l hl => optObjField_no_newline _ _ _ hl
  · exact fun l hl => optObjField_no_newline _ _ _ hl
  · exact fun l hl => optObjField_no_newline _ _ _ hl

/-- The serialized event contains no newline: it is one line. -/
theorem stringifyEvent_single_line (e : WideEvent) :
    '\n' ∉ (stringifyEvent e).data := by
  unfold stringifyEvent
  intro hmem
  rcases List.mem_cons.mp hmem with h | h
  · exact absurd h.symm (by decide)
  · rcases List.mem_append.mp h with h | h
    · rcases commaJoin_mem _ _ h with h | ⟨l, hl, hc⟩
      · exact absurd h (by decide)
      · exact eventFields_no_newline e l hl hc
    · simp_all

/-! ## The middleware (`middleware.ts`)

`wideLogger(options)` merges the user options over the defaults and returns
a per-request handler.  One execution of that handler is embedded as a pure
function: the host framework, the clock, the random source, the id
generator and the sinks appear as explicit inputs, and the observable
actions come back in a result record. -/

/-- The user options after the default merge
`\x7b ...defaultOptions, logger: options?.logger ?? console, ...options \x7d`:
a `none` field means the caller did not supply it, so the stated default
applies.  The logger itself carries no data the model needs beyond whether
its `info` call throws (see `MwEnv`). -/
structure MwConfig : Type where
  hasStorage : Bool
  sampling : Option (WideEvent → Bool)
  slowThresholdMs : Option Nat
  sampleRate : Option ℚ
  requestIdHeader : Option String
  errorCode : Option Nat

/-- Injected platform effects for one request: the timestamp string, the
start/end clock readings, the id-generator and `crypto.randomUUID()`
outputs, the `Math.random()` draw, `NODE_ENV === "development"`, and
whether each sink call throws (with the error it throws). -/
structure MwEnv : Type where
  ts : String
  t0 : Nat
  t1 : Nat
  genId : String
  uuid : String
  draw : ℚ
  dev : Bool
  loggerFails : Option JsError
  storageFails : Option JsError

/-- The inbound request as the middleware reads it through Hono. -/
structure MwRequest : Type where
  method : String
  path : String
  header : String → Option String

/-- One call a downstream handler makes on the exposed context API. -/
inductive CtxAction : Type where
  | ctx : Category → Obj → CtxAction
  | err : JsError → Option Obj → CtxAction

/-- How the downstream handler (`await next()`) ends. -/
inductive Outcome : Type where
  | ok : Nat → Outcome
  | throws : JsError → Outcome

/-- Everything one middleware execution does that the outside can see. -/
structure MwResult : Type where
  responseHeaders : List (String × String)
  sampledOn : WideEvent
  decision : Bool
  logged : List String
  stored : List (String × WideEvent)
  result : Except JsError Unit

/-- The options record passed to `defaultSampling` in the `finally` block:
`\x7b slowThresholdMs: opts.slowThresholdMs || 2000,
sampleRate: opts.sampleRate || 0.05, errorCode: opts.errorCode \x7d`. -/
def effOptions (cfg : MwConfig) : SamplingOptions :=
  { slowThresholdMs := jsOrNat (cfg.slowThresholdMs.getD 2000) 2000,
    sampleRate := jsOrRat (cfg.sampleRate.getD (mkRat 1 20)) (mkRat 1 20),
    errorCode := cfg.errorCode }

/-- The event built at request start from the request basics. -/
def initialEvent (env : MwEnv) (req : MwRequest) (requestId : String) :
    WideEvent :=
  { request_id := requestId,
    timestamp := env.ts,
    method := req.method,
    path := req.path,
    client_ip := jsOrOpt (req.header ("x-forwarded-for")) (req.header ("x-real-ip")),
    user_agent := req.header ("user-agent"),
    content_type := req.header ("Content-type"),
    status_code := none,
    duration_ms := none,
    user := none, business := none, infra := none, service := none,
    error := none }

/-- Effect of one context-API call on the event. -/
def applyAction (dev : Bool) (e : WideEvent) : CtxAction → WideEvent
  | .ctx cat data => addContext e cat data
  | .err er md => setError dev e er md

/-- The `try`/`catch` around `await next()`: on success the event gets the
response status and the duration; on a throw it gets `status_code = 500`,
the duration, and `addError(error)` with no metadata, and the error is
re-thrown (carried as the pending outcome). -/
def finalize (env : MwEnv) (e : WideEvent) :
    Outcome → WideEvent × Except JsError Unit
  | .ok st =>
      ({ e with status_code := some st,
                duration_ms := some (env.t1 - env.t0) }, Except.ok ())
  | .throws er =>
      (setError env.dev
        { e with status_code := some 500,
                 duration_ms := some (env.t1 - env.t0) } er none,
       Except.error er)

/-- Trace of the `finally` block's emit/persist phase. -/
structure DispOut : Type where
  logged : List String
  stored : List (String × WideEvent)
  result : Except JsError Unit

/-- The `finally` block after the sampling decision: when the decision is
true the logger's `info` is called with the serialized line; if that call
throws, the thrown error replaces the pending outcome (JavaScript `finally`
semantics) and `storage.set` is never reached; otherwise, when a storage
sink is configured, `storage.set(requestId, event)` is awaited, and its
rejection likewise replaces the pending outcome. -/
def dispositionRun (cfg : MwConfig) (env : MwEnv) (requestId : String)
    (line : String) (e : WideEvent) (decision : Bool)
    (pending : Except JsError Unit) : DispOut :=
  if decision then
    match env.loggerFails with
    | some f => { logged := [line], stored := [], result := Except.error f }
    | none =>
        if cfg.hasStorage then
          { logged := [line],
            stored := [(requestId, e)],
            result := match env.storageFails with
              | some f => Except.error f
              | none => pending }
        else { logged := [line], stored := [], result := pending }
  else { logged := [], stored := [], result := pending }

/-- `opts.requestIdHeader || "x-request-id"`: the header name the incoming
request id is read from. -/
def resolvedHeaderName (cfg : MwConfig) : String :=
  jsOrS cfg.requestIdHeader ("x-request-id")

/-- `c.req.header(hdrName) || opts.generateRequestId?.() ||
crypto.randomUUID()`: the resolved request id. -/
def resolvedRequestId (cfg : MwConfig) (env : MwEnv) (req : MwRequest) :
    String :=
  jsOrS (req.header (resolvedHeaderName cfg)) (jsOrS (some env.genId) env.uuid)

/-- The event after the downstream handler's context-API calls. -/
def processedEvent (cfg : MwConfig) (env : MwEnv) (req : MwRequest)
    (actions : List CtxAction) : WideEvent :=
  actions.foldl (applyAction env.dev)
    (initialEvent env req (resolvedRequestId cfg env req))

/-- The event after the `try`/`catch` finalization. -/
def finalizedEvent (cfg : MwConfig) (env : MwEnv) (req : MwRequest)
    (actions : List CtxAction) (outcome : Outcome) : WideEvent :=
  (finalize env (processedEvent cfg env req actions) outcome).1

/-- The outcome pending when the `finally` block starts: `ok` on the
success path, the caught error (about to be re-thrown) on the failure
path. -/
def pendingResult (cfg : MwConfig) (env : MwEnv) (req : MwRequest)
    (actions : List CtxAction) (outcome : Outcome) : Except JsError Unit :=
  (finalize env (processedEvent cfg env req actions) outcome).2

/-- The sampling decision in the `finally` block: the caller-supplied
override on the finalized event, or `defaultSampling` with the re-defaulted
options and the `Math.random()` draw. -/
def samplingDecision (cfg : MwConfig) (env : MwEnv) (req : MwRequest)
    (actions : List CtxAction) (outcome : Outcome) : Bool :=
  match cfg.sampling with
  | some f => f (finalizedEvent cfg env req actions outcome)
  | none => defaultSampling (finalizedEvent cfg env req actions outcome)
      (effOptions cfg) env.draw

/-- The emit/persist trace of the `finally` block. -/
def dispositionOut (cfg : MwConfig) (env : MwEnv) (req : MwRequest)
    (actions : List CtxAction) (outcome : Outcome) : DispOut :=
  dispositionRun cfg env (resolvedRequestId cfg env req)
    (stringifyEvent (finalizedEvent cfg env req actions outcome))
    (finalizedEvent cfg env req actions outcome)
    (samplingDecision cfg env req actions outcome)
    (pendingResult cfg env req actions outcome)

/-- One full execution of the handler returned by `wideLogger`:
resolve the request id, build the initial event, set the echo response
header (the source writes the literal header name `x-request-id`), run the
downstream actions and outcome, finalize, decide sampling on the finalized
event, and run the disposition phase. -/
def wideLogger (cfg : MwConfig) (env : MwEnv) (req : MwRequest)
    (actions : List CtxAction) (outcome : Outcome) : MwResult :=
  { responseHeaders := [(("x-request-id"), resolvedRequestId cfg env req)],
    sampledOn := finalizedEvent cfg env req actions outcome,
    decision := samplingDecision cfg env req actions outcome,
    logged := (dispositionOut cfg env req actions outcome).logged,
    stored := (dispositionOut cfg env req actions outcome).stored,
    result := (dispositionOut cfg env req actions outcome).result }

/-! ## Concrete fixtures used by witnesses and counterexamples -/

/-- A default, fully-defaulted configuration. -/
def cfgT : MwConfig :=
  { hasStorage := false, sampling := none, slowThresholdMs := none,
    sampleRate := none, requestIdHeader := none, errorCode := none }

/-- A benign environment: 5 ms elapsed, draw one half, sinks succeed. -/
def envT : MwEnv :=
  { ts := ("2024-01-01T00:00:00.000Z"), t0 := 0, t1 := 5,
    genId := ("gen-id"), uuid := ("uuid-1"), draw := mkRat 1 2,
    dev := false, loggerFails := none, storageFails := none }

/-- A plain request with no headers. -/
def reqT : MwRequest :=
  { method := ("GET"), path := ("/x"), header := fun _ => none }

/-- A concrete error with only the mandatory properties, for witnesses
and counterexamples. -/
def mkErr (n m : String) : JsError :=
  { name := n, message := m, code := none, retriable := none, stack := none }

/-- A bare event, as at request start. -/
def evT : WideEvent :=
  { request_id := ("r"), timestamp := ("2024-01-01T00:00:00.000Z"),
    method := ("GET"), path := ("/x"),
    client_ip := none, user_agent := none, content_type := none,
    status_code := none, duration_ms := none,
    user := none, business := none, infra := none, service := none,
    error := none }

/-! ## Supporting lemmas -/

theorem applyAction_request_id (dev : Bool) (e : WideEvent) (a : CtxAction) :
    (applyAction dev e a).request_id = e.request_id := by
  cases a with
  | ctx cat data => cases cat <;> rfl
  | err er md => rfl

theorem foldl_applyAction_request_id (dev : Bool) (acts : List CtxAction) :
    ∀ e : WideEvent,
      (acts.foldl (applyAction dev) e).request_id = e.request_id := by
  induction acts with
  | nil => intro e; rfl
  | cons a t ih =>
      intro e
      rw [List.foldl_cons, ih, applyAction_request_id]

theorem finalize_request_id (env : MwEnv) (e : WideEvent) (o : Outcome) :
    (finalize env e o).1.request_id = e.request_id := by
  cases o <;> rfl

theorem finalizedEvent_request_id (cfg : MwConfig) (env : MwEnv)
    (req : MwRequest) (actions : List CtxAction) (outcome : Outcome) :
    (finalizedEvent cfg env req actions outcome).request_id =
      resolvedRequestId cfg env req := by
  unfold finalizedEvent processedEvent
  rw [finalize_request_id, foldl_applyAction_request_id]
  rfl

theorem finalizedEvent_status_isSome (cfg : MwConfig) (env : MwEnv)
    (req : MwRequest) (actions : List CtxAction) (outcome : Outcome) :
    (finalizedEvent cfg env req actions outcome).status_code.isSome = true := by
  unfold finalizedEvent
  cases outcome <;> rfl

theorem finalizedEvent_duration_isSome (cfg : MwConfig) (env : MwEnv)
    (req : MwRequest) (actions : List CtxAction) (outcome : Outcome) :
    (finalizedEvent cfg env req actions outcome).duration_ms.isSome = true := by
  unfold finalizedEvent
  cases outcome <;> rfl

theorem dispositionRun_false (cfg : MwConfig) (env : MwEnv)
    (rid line : String) (e : WideEvent) (p : Except JsError Unit) :
    dispositionRun cfg env rid line e false p =
      { logged := [], stored := [], result := p } := by
  rfl

theorem dispositionRun_true_ok (cfg : MwConfig) (env : MwEnv)
    (rid line : String) (e : WideEvent) (p : Except JsError Unit)
    (hl : env.loggerFails = none) (hs : env.storageFails = none) :
    dispositionRun cfg env rid line e true p =
      { logged := [line],
        stored := if cfg.hasStorage then [(rid, e)] else [],
        result := p } := by
  unfold dispositionRun
  rw [hl]
  cases cfg.hasStorage <;> simp [hs]

theorem dispositionRun_logger_throw (cfg : MwConfig) (env : MwEnv)
    (rid line : String) (e : WideEvent) (p : Except JsError Unit)
    (f : JsError) (hl : env.loggerFails = some f) :
    (dispositionRun cfg env rid line e true p).result = Except.error f := by
  unfold dispositionRun
  rw [hl]
  rfl

theorem dispositionRun_storage_throw (cfg : MwConfig) (env : MwEnv)
    (rid line : String) (e : WideEvent) (p : Except JsError Unit)
    (g : JsError) (hl : env.loggerFails = none)
    (hs : env.storageFails = some g) (hst : cfg.hasStorage = true) :
    (dispositionRun cfg env rid line e true p).result = Except.error g := by
  unfold dispositionRun
  rw [hl, hst, hs]
  rfl

theorem statusTruthyGe_eq_of_pos (s eff : Nat) (hpos : 0 < eff) :
    statusTruthyGe (some s) eff = decide (eff ≤ s) := by
  by_cases h0 : s = 0
  · subst h0
    simp [statusTruthyGe]
    omega
  · simp [statusTruthyGe, h0]

theorem durTruthyGt_eq (d slow : Nat) :
    durTruthyGt (some d) slow = decide (slow < d) := by
  by_cases h0 : d = 0
  · subst h0
    simp [durTruthyGt]
  · simp [durTruthyGt, h0]

/-- Modelled from the claim's words (a refinement specification, to be
compared with the source-derived `defaultSampling`): first match wins —
keep when `status_code` is present and at least the configured
error-status threshold (default 500); else keep when the error
substructure is present; else keep when `duration_ms` is present and
strictly above the slow threshold; else keep exactly when the draw is
below the sample rate. -/
def specDefaultSampling (event : WideEvent) (options : SamplingOptions)
    (draw : ℚ) : Bool :=
  if (match event.status_code with
      | some s => decide (options.errorCode.getD 500 ≤ s)
      | none => false) then true
  else if event.error.isSome then true
  else if (match event.duration_ms with
      | some d => decide (options.slowThresholdMs < d)
      | none => false) then true
  else decide (draw < options.sampleRate)

/-! ## Claim theorems -/

/-- C5: for every category and all mappings `d1`, `d2`, running
`addContext(cat, d1)` then `addContext(cat, d2)` on an event whose `cat`
slot is still absent leaves the slot equal to the shallow merge of `d1`
then `d2`: keys present in both take `d2`'s value (later wins), keys
present only in `d1` survive, and no existing key is deleted. -/
theorem addContext_shallow_merge (e : WideEvent) (cat : Category)
    (d1 d2 : Obj) (h : e.slot cat = none) :
    (addContext (addContext e cat d1) cat d2).slot cat
        = some (spread d1 d2) ∧
    (∀ k v1 v2, olookup d1 k = some v1 → olookup d2 k = some v2 →
        olookup (spread d1 d2) k = some v2) ∧
    (∀ k v1, olookup d1 k = some v1 → olookup d2 k = none →
        olookup (spread d1 d2) k = some v1) ∧
    (∀ k, (olookup d1 k).isSome = true →
        (olookup (spread d1 d2) k).isSome = true) := by
  refine ⟨?_, ?_, ?_, ?_⟩
  · cases cat <;>
      simp only [WideEvent.slot, addContext] at h ⊢ <;>
      rw [h] <;>
      simp [spread_nil_left]
  · intro k v1 v2 h1 h2
    rw [olookup_spread, h2]
    rfl
  · intro k v1 h1 h2
    rw [olookup_spread, h2, h1]
    rfl
  · intro k h1
    rw [olookup_spread]
    cases h2 : olookup d2 k
    · cases h3 : olookup d1 k
      · rw [h3] at h1; simp at h1
      · rfl
    · rfl

/-- Witness for C5 at a concrete event and concrete overlapping data. -/
theorem addContext_shallow_merge_witness :
    evT.slot Category.user = none ∧
    ((addContext (addContext evT Category.user
          [(("a"), JVal.vStr ("1")), (("b"), JVal.vStr ("2"))])
        Category.user
          [(("a"), JVal.vStr ("3")), (("c"), JVal.vStr ("4"))]).slot
        Category.user
      = some (spread [(("a"), JVal.vStr ("1")), (("b"), JVal.vStr ("2"))]
          [(("a"), JVal.vStr ("3")), (("c"), JVal.vStr ("4"))]) ∧
    (∀ k v1 v2,
        olookup [(("a"), JVal.vStr ("1")), (("b"), JVal.vStr ("2"))] k = some v1 →
        olookup [(("a"), JVal.vStr ("3")), (("c"), JVal.vStr ("4"))] k = some v2 →
        olookup (spread [(("a"), JVal.vStr ("1")), (("b"), JVal.vStr ("2"))]
          [(("a"), JVal.vStr ("3")), (("c"), JVal.vStr ("4"))]) k = some v2) ∧
    (∀ k v1,
        olookup [(("a"), JVal.vStr ("1")), (("b"), JVal.vStr ("2"))] k = some v1 →
        olookup [(("a"), JVal.vStr ("3")), (("c"), JVal.vStr ("4"))] k = none →
        olookup (spread [(("a"), JVal.vStr ("1")), (("b"), JVal.vStr ("2"))]
          [(("a"), JVal.vStr ("3")), (("c"), JVal.vStr ("4"))]) k = some v1) ∧
    (∀ k, (olookup [(("a"), JVal.vStr ("1")), (("b"), JVal.vStr ("2"))] k).isSome = true →
        (olookup (spread [(("a"), JVal.vStr ("1")), (("b"), JVal.vStr ("2"))]
          [(("a"), JVal.vStr ("3")), (("c"), JVal.vStr ("4"))]) k).isSome = true)) :=
  ⟨rfl, addContext_shallow_merge evT Category.user _ _ rfl⟩

/-- C6 counterexample: the claim says the derived `code` equals
`error.code` whenever that property is present; but for an error whose
`code` property is present and equal to the empty string, the source's
`error.code || "UNKNOWN"` falls through to `"UNKNOWN"`. -/
theorem addError_empty_code_cex :
    (let errE : JsError :=
      { name := ("E"), message := ("m"), code := some (""),
        retriable := none, stack := none }
     errE.code = some ("") ∧
     olookup (((setError false evT errE none).error).getD []) ("code")
        = some (JVal.vStr ("UNKNOWN")) ∧
     some (JVal.vStr ("UNKNOWN")) ≠ some (JVal.vStr (""))) := by
  refine ⟨rfl, ?_, by decide⟩
  decide

/-- C6 (amended): `addError(error, metadata)` sets the event's error
substructure with `type` the error's runtime name, `message` the error's
message, `code` equal to `error.code` when present and non-empty (else
`"UNKNOWN"`), `retriable` equal to `error.retriable` when present (else
`false`), and the caller metadata shallow-merged on top, winning over the
derived fields on key collision. -/
theorem addError_derived_fields (dev : Bool) (e : WideEvent)
    (err : JsError) (md : Option Obj) :
    (let eo := ((setError dev e err md).error).getD []
     olookup eo ("type")
        = oalt (olookup (md.getD []) ("type")) (some (JVal.vStr err.name)) ∧
     olookup eo ("code")
        = oalt (olookup (md.getD []) ("code"))
            (some (JVal.vStr (match err.code with
              | some c => if c = ("") then ("UNKNOWN") else c
              | none => ("UNKNOWN")))) ∧
     olookup eo ("message")
        = oalt (olookup (md.getD []) ("message"))
            (some (JVal.vStr err.message)) ∧
     olookup eo ("retriable")
        = oalt (olookup (md.getD []) ("retriable"))
            (some (JVal.vBool (err.retriable.getD false)))) := by
  intro eo
  have heo : eo = spread (errorBase dev err) (md.getD []) := rfl
  rw [heo]
  refine ⟨?_, ?_, ?_, ?_⟩ <;>
    rw [olookup_spread] <;>
    simp [errorBase, olookup, jsOrS]

/-- C8 counterexample: the claim says a second `addError` call merges into
the existing error details; but metadata added by the first call (a key
`extra`) is gone after the second call, so the second call is not a merge
into the existing substructure. -/
theorem addError_metadata_lost_cex :
    (let err1 : JsError :=
      { name := ("E1"), message := ("m1"), code := none,
        retriable := none, stack := none }
     let err2 : JsError :=
      { name := ("E2"), message := ("m2"), code := none,
        retriable := none, stack := none }
     let first := setError false evT err1 (some [(("extra"), JVal.vStr ("x"))])
     olookup (first.error.getD []) ("extra") = some (JVal.vStr ("x")) ∧
     olookup ((setError false first err2 none).error.getD []) ("extra")
        = none) := by
  exact ⟨by decide, by decide⟩

/-- C8 (amended): a second `addError` call replaces the error substructure
wholesale: the result equals what a single `addError` with the second
error and metadata would produce — `type`/`code`/`message`/`retriable`/
`stack` take the newest error's derived values and the second call's
metadata is merged on top, while metadata from the first call does not
survive unless re-supplied. -/
theorem addError_second_call_replaces (dev : Bool) (e : WideEvent)
    (err1 : JsError) (md1 : Option Obj) (err2 : JsError) (md2 : Option Obj) :
    setError dev (setError dev e err1 md1) err2 md2
        = setError dev e err2 md2 ∧
    (setError dev (setError dev e err1 md1) err2 md2).error
        = some (spread (errorBase dev err2) (md2.getD [])) :=
  ⟨rfl, rfl⟩

/-- C10: each context-API operation only touches its own target field:
`addContext(cat, data)` changes only the `cat` slot, leaving the other
three category slots, the identity fields, `status_code`, `duration_ms`
and the error substructure unchanged; `addError` changes only the error
field, leaving every other field — in particular `status_code` — and all
four category slots unchanged. -/
theorem context_api_frame (e : WideEvent) (cat : Category) (data : Obj)
    (dev : Bool) (err : JsError) (md : Option Obj) :
    ((addContext e cat data).request_id = e.request_id ∧
     (addContext e cat data).timestamp = e.timestamp ∧
     (addContext e cat data).method = e.method ∧
     (addContext e cat data).path = e.path ∧
     (addContext e cat data).status_code = e.status_code ∧
     (addContext e cat data).duration_ms = e.duration_ms ∧
     (addContext e cat data).error = e.error ∧
     (∀ c, c ≠ cat → (addContext e cat data).slot c = e.slot c)) ∧
    ((setError dev e err md).request_id = e.request_id ∧
     (setError dev e err md).timestamp = e.timestamp ∧
     (setError dev e err md).method = e.method ∧
     (setError dev e err md).path = e.path ∧
     (setError dev e err md).status_code = e.status_code ∧
     (setError dev e err md).duration_ms = e.duration_ms ∧
     (∀ c, (setError dev e err md).slot c = e.slot c)) := by
  constructor
  · cases cat <;>
      refine ⟨rfl, rfl, rfl, rfl, rfl, rfl, rfl, ?_⟩ <;>
      intro c hc <;>
      cases c <;>
      first
        | rfl
        | exact absurd rfl hc
  · exact ⟨rfl, rfl, rfl, rfl, rfl, rfl, fun c => by cases c <;> rfl⟩

/-- Witness for C10 with a concrete event, category and error. -/
theorem context_api_frame_witness :
    ((addContext evT Category.user [(("id"), JVal.vStr ("7"))]).slot
        Category.business = evT.slot Category.business) ∧
    ((setError false evT
        { name := ("E"), message := ("m"), code := none,
          retriable := none, stack := none } none).status_code
      = evT.status_code) :=
  ⟨(context_api_frame evT Category.user [(("id"), JVal.vStr ("7"))] false
      { name := ("E"), message := ("m"), code := none,
        retriable := none, stack := none } none).1.2.2.2.2.2.2.2
      Category.business (by decide),
   (context_api_frame evT Category.user [(("id"), JVal.vStr ("7"))] false
      { name := ("E"), message := ("m"), code := none,
        retriable := none, stack := none } none).2.2.2.2.2.1⟩

/-- C2: the default sampling policy decides in short-circuit order with
first match winning — status present and at least the configured
error-status threshold (default 500, and the configurable values the
option type admits are 400 and 500); else error substructure present;
else duration present and strictly above the slow threshold; else keep
exactly when the uniform draw is below the sample rate.  Stated as
equality of the source-derived `defaultSampling` with the refinement
specification written from the claim's words. -/
theorem defaultSampling_decision_order (event : WideEvent)
    (options : SamplingOptions) (draw : ℚ)
    (h : options.errorCode = none ∨ options.errorCode = some 400 ∨
      options.errorCode = some 500) :
    defaultSampling event options draw
      = specDefaultSampling event options draw := by
  have heff : effErrorCode options.errorCode = options.errorCode.getD 500 := by
    rcases h with h | h | h <;> simp [h, effErrorCode]
  have hpos : 0 < options.errorCode.getD 500 := by
    rcases h with h | h | h <;> simp [h]
  unfold defaultSampling specDefaultSampling
  rw [heff]
  cases hsc : event.status_code with
  | none =>
      cases hd : event.duration_ms with
      | none => simp [statusTruthyGe, durTruthyGt]
      | some d => simp [statusTruthyGe, durTruthyGt_eq]
  | some s =>
      rw [statusTruthyGe_eq_of_pos s _ hpos]
      cases hd : event.duration_ms with
      | none => simp [durTruthyGt]
      | some d => simp [durTruthyGt_eq]

/-- Witness for C2 on a plain 404 event under the default options. -/
theorem defaultSampling_decision_order_witness :
    (cfgT.errorCode = none ∨ cfgT.errorCode = some 400 ∨
      cfgT.errorCode = some 500) ∧
    defaultSampling { evT with
        status_code := some 404,
        duration_ms := some 100 } (effOptions cfgT) (mkRat 1 2)
      = specDefaultSampling { evT with
          status_code := some 404,
          duration_ms := some 100 } (effOptions cfgT) (mkRat 1 2) :=
  ⟨Or.inl rfl,
   defaultSampling_decision_order _ (effOptions cfgT) (mkRat 1 2)
     (Or.inl rfl)⟩

/-- C4 (the code violates the claim): a middleware configured with
`sampleRate = 0` still retains a plain finalized event whenever the draw
is below 0.05, because the `finally` block re-defaults the rate with
`opts.sampleRate || 0.05` and `0` is falsy.  Evaluated at the failing
input: a plain 200 response in 5 ms, `sampleRate` set to 0, draw 1/100 —
the decision is true and the event is emitted, and the options handed to
`defaultSampling` carry rate 1/20, not 0. -/
theorem wideLogger_sampleRate_zero_retains :
    (let cfg0 : MwConfig := { cfgT with sampleRate := some (mkRat 0 1) }
     let env0 : MwEnv := { envT with draw := mkRat 1 100 }
     (effOptions cfg0).sampleRate = mkRat 1 20 ∧
     (wideLogger cfg0 env0 reqT [] (.ok 200)).decision = true ∧
     (wideLogger cfg0 env0 reqT [] (.ok 200)).logged ≠ []) := by
  refine ⟨by decide, by decide, ?_⟩
  intro hcontra
  exact absurd hcontra (by decide)

/-- C1: for every request, configuration, handler behaviour and outcome
(normal return or throw), the disposition step runs exactly once when the
sinks behave: the sampling policy (override or default) is evaluated on
the finalized event — whose `status_code` and `duration_ms` are already
set — and when it returns true the event is emitted as exactly one
serialized line (no newline in it) via the logger's info channel, and,
exactly when a storage sink is configured, persisted exactly once via
`storage.set` keyed by the resolved request id; when it returns false
nothing is emitted or persisted. -/
theorem wideLogger_disposition_once (cfg : MwConfig) (env : MwEnv)
    (req : MwRequest) (actions : List CtxAction) (outcome : Outcome)
    (hl : env.loggerFails = none) (hs : env.storageFails = none) :
    (wideLogger cfg env req actions outcome).sampledOn.status_code.isSome
        = true ∧
    (wideLogger cfg env req actions outcome).sampledOn.duration_ms.isSome
        = true ∧
    ((wideLogger cfg env req actions outcome).decision =
      match cfg.sampling with
      | some f => f (wideLogger cfg env req actions outcome).sampledOn
      | none => defaultSampling
          (wideLogger cfg env req actions outcome).sampledOn
          (effOptions cfg) env.draw) ∧
    ((wideLogger cfg env req actions outcome).decision = true →
      (wideLogger cfg env req actions outcome).logged
        = [stringifyEvent (wideLogger cfg env req actions outcome).sampledOn] ∧
      ('\n' ∉ (stringifyEvent
          (wideLogger cfg env req actions outcome).sampledOn).data) ∧
      (cfg.hasStorage = true →
        (wideLogger cfg env req actions outcome).stored
          = [((wideLogger cfg env req actions outcome).sampledOn.request_id,
              (wideLogger cfg env req actions outcome).sampledOn)]) ∧
      (cfg.hasStorage = false →
        (wideLogger cfg env req actions outcome).stored = [])) ∧
    ((wideLogger cfg env req actions outcome).decision = false →
      (wideLogger cfg env req actions outcome).logged = [] ∧
      (wideLogger cfg env req actions outcome).stored = []) := by
  have hso : (wideLogger cfg env req actions outcome).sampledOn
      = finalizedEvent cfg env req actions outcome := rfl
  refine ⟨?_, ?_, rfl, ?_, ?_⟩
  · rw [hso]
    exact finalizedEvent_status_isSome cfg env req actions outcome
  · rw [hso]
    exact finalizedEvent_duration_isSome cfg env req actions outcome
  · intro hdec
    have hdec2 : samplingDecision cfg env req actions outcome = true := hdec
    have hdisp : dispositionOut cfg env req actions outcome =
        { logged :=
            [stringifyEvent (finalizedEvent cfg env req actions outcome)],
          stored := if cfg.hasStorage then
              [(resolvedRequestId cfg env req,
                finalizedEvent cfg env req actions outcome)]
            else [],
          result := pendingResult cfg env req actions outcome } := by
      unfold dispositionOut
      rw [hdec2, dispositionRun_true_ok _ _ _ _ _ _ hl hs]
    refine ⟨?_, stringifyEvent_single_line _, ?_, ?_⟩
    · show (dispositionOut cfg env req actions outcome).logged = _
      rw [hdisp]
      rfl
    · intro hst
      show (dispositionOut cfg env req actions outcome).stored = _
      rw [hdisp]
      simp only [hst, if_true]
      rw [hso, finalizedEvent_request_id]
    · intro hst
      show (dispositionOut cfg env req actions outcome).stored = _
      rw [hdisp]
      simp [hst]
  · intro hdec
    have hdec2 : samplingDecision cfg env req actions outcome = false := hdec
    constructor
    · show (dispositionOut cfg env req actions outcome).logged = _
      unfold dispositionOut
      rw [hdec2, dispositionRun_false]
    · show (dispositionOut cfg env req actions outcome).stored = _
      unfold dispositionOut
      rw [hdec2, dispositionRun_false]

/-- Witness for C1 on a default configuration, a plain request and a
normal 200 return. -/
theorem wideLogger_disposition_once_witness :
    envT.loggerFails = none ∧ envT.storageFails = none ∧
    ((wideLogger cfgT envT reqT [] (.ok 200)).sampledOn.status_code.isSome
        = true ∧
     (wideLogger cfgT envT reqT [] (.ok 200)).sampledOn.duration_ms.isSome
        = true ∧
     ((wideLogger cfgT envT reqT [] (.ok 200)).decision =
       match cfgT.sampling with
       | some f => f (wideLogger cfgT envT reqT [] (.ok 200)).sampledOn
       | none => defaultSampling
           (wideLogger cfgT envT reqT [] (.ok 200)).sampledOn
           (effOptions cfgT) envT.draw) ∧
     ((wideLogger cfgT envT reqT [] (.ok 200)).decision = true →
       (wideLogger cfgT envT reqT [] (.ok 200)).logged
         = [stringifyEvent (wideLogger cfgT envT reqT [] (.ok 200)).sampledOn] ∧
       ('\n' ∉ (stringifyEvent
           (wideLogger cfgT envT reqT [] (.ok 200)).sampledOn).data) ∧
       (cfgT.hasStorage = true →
         (wideLogger cfgT envT reqT [] (.ok 200)).stored
           = [((wideLogger cfgT envT reqT [] (.ok 200)).sampledOn.request_id,
               (wideLogger cfgT envT reqT [] (.ok 200)).sampledOn)]) ∧
       (cfgT.hasStorage = false →
         (wideLogger cfgT envT reqT [] (.ok 200)).stored = [])) ∧
     ((wideLogger cfgT envT reqT [] (.ok 200)).decision = false →
       (wideLogger cfgT envT reqT [] (.ok 200)).logged = [] ∧
       (wideLogger cfgT envT reqT [] (.ok 200)).stored = [])) :=
  ⟨rfl, rfl, wideLogger_disposition_once cfgT envT reqT [] (.ok 200) rfl rfl⟩

/-- C3: when the downstream handler throws, the middleware sets
`status_code` to exactly 500 regardless of the thrown error, sets
`duration_ms` to the elapsed time, records the caught error via
`addError` with no metadata (so the error slot is exactly the derived
substructure), and — when the sinks behave — the error propagating out of
the middleware is the original one, unchanged. -/
theorem wideLogger_failure_path (cfg : MwConfig) (env : MwEnv)
    (req : MwRequest) (actions : List CtxAction) (err : JsError)
    (hl : env.loggerFails = none) (hs : env.storageFails = none) :
    (wideLogger cfg env req actions (.throws err)).sampledOn.status_code
        = some 500 ∧
    (wideLogger cfg env req actions (.throws err)).sampledOn.duration_ms
        = some (env.t1 - env.t0) ∧
    (wideLogger cfg env req actions (.throws err)).sampledOn.error
        = some (errorBase env.dev err) ∧
    (wideLogger cfg env req actions (.throws err)).result
        = Except.error err := by
  refine ⟨rfl, rfl, ?_, ?_⟩
  · show (finalizedEvent cfg env req actions (.throws err)).error = _
    unfold finalizedEvent finalize
    simp [setError, spread_nil_right]
  · show (dispositionOut cfg env req actions (.throws err)).result = _
    unfold dispositionOut
    cases hdec : samplingDecision cfg env req actions (.throws err)
    · rw [dispositionRun_false]
      rfl
    · rw [dispositionRun_true_ok _ _ _ _ _ _ hl hs]
      rfl

/-- Witness for C3 with a concrete thrown error. -/
theorem wideLogger_failure_path_witness :
    envT.loggerFails = none ∧ envT.storageFails = none ∧
    ((wideLogger cfgT envT reqT []
        (.throws (mkErr ("RangeError") ("bad index")))).sampledOn.status_code
        = some 500 ∧
     (wideLogger cfgT envT reqT []
        (.throws (mkErr ("RangeError") ("bad index")))).sampledOn.duration_ms
        = some (envT.t1 - envT.t0) ∧
     (wideLogger cfgT envT reqT []
        (.throws (mkErr ("RangeError") ("bad index")))).sampledOn.error
        = some (errorBase envT.dev (mkErr ("RangeError") ("bad index"))) ∧
     (wideLogger cfgT envT reqT []
        (.throws (mkErr ("RangeError") ("bad index")))).result
        = Except.error (mkErr ("RangeError") ("bad index"))) :=
  ⟨rfl, rfl,
   wideLogger_failure_path cfgT envT reqT []
     (mkErr ("RangeError") ("bad index")) rfl rfl⟩

/-- C7 (the code violates the claim): with a custom `requestIdHeader` the
middleware reads the incoming id from the configured header name, but the
response header it writes is the hard-coded literal `x-request-id`, not
the configured name.  Evaluated at the failing input: configured name
`x-correlation-id`, incoming header value `abc`. -/
theorem wideLogger_header_echo_literal :
    (let cfgH : MwConfig := { cfgT with requestIdHeader := some ("x-correlation-id") }
     let reqH : MwRequest :=
       { method := ("GET"), path := ("/x"),
         header := fun h =>
           if h = ("x-correlation-id") then some ("abc") else none }
     (wideLogger cfgH envT reqH [] (.ok 200)).sampledOn.request_id
        = ("abc") ∧
     (wideLogger cfgH envT reqH [] (.ok 200)).responseHeaders
        = [(("x-request-id"), ("abc"))] ∧
     ("x-request-id") ≠ ("x-correlation-id")) := by
  refine ⟨by decide, by decide, by decide⟩

/-- C9 counterexample: on the failure path with a throwing logger sink,
the error that propagates out of the middleware is the sink's error, not
the handler's — the claim that the original handler error still
propagates is false. -/
theorem wideLogger_sink_throw_cex :
    (wideLogger cfgT
        { envT with loggerFails := some (mkErr ("LoggerError") ("sink down")) }
        reqT [] (.throws (mkErr ("HandlerError") ("boom")))).result
      = Except.error (mkErr ("LoggerError") ("sink down")) ∧
    (wideLogger cfgT
        { envT with loggerFails := some (mkErr ("LoggerError") ("sink down")) }
        reqT [] (.throws (mkErr ("HandlerError") ("boom")))).result
      ≠ Except.error (mkErr ("HandlerError") ("boom")) := by
  exact ⟨by decide, by decide⟩

/-- C9 (amended): on the failure path, a throw from the emit or persist
step inside the disposition phase replaces the original handler error —
JavaScript `finally` semantics — so the error propagating out of the
middleware is the sink's error whenever the event was retained; the
original handler error propagates exactly when the sinks do not throw. -/
theorem wideLogger_sink_error_replaces (cfg : MwConfig) (env : MwEnv)
    (req : MwRequest) (actions : List CtxAction) (errH : JsError) :
    (∀ f, env.loggerFails = some f →
      (wideLogger cfg env req actions (.throws errH)).decision = true →
      (wideLogger cfg env req actions (.throws errH)).result
        = Except.error f) ∧
    (∀ g, env.loggerFails = none → env.storageFails = some g →
      cfg.hasStorage = true →
      (wideLogger cfg env req actions (.throws errH)).decision = true →
      (wideLogger cfg env req actions (.throws errH)).result
        = Except.error g) ∧
    (env.loggerFails = none → env.storageFails = none →
      (wideLogger cfg env req actions (.throws errH)).result
        = Except.error errH) := by
  refine ⟨?_, ?_, ?_⟩
  · intro f hl hdec
    have hdec2 : samplingDecision cfg env req actions (.throws errH)
        = true := hdec
    show (dispositionOut cfg env req actions (.throws errH)).result = _
    unfold dispositionOut
    rw [hdec2]
    exact dispositionRun_logger_throw _ _ _ _ _ _ f hl
  · intro g hl hs hst hdec
    have hdec2 : samplingDecision cfg env req actions (.throws errH)
        = true := hdec
    show (dispositionOut cfg env req actions (.throws errH)).result = _
    unfold dispositionOut
    rw [hdec2]
    exact dispositionRun_storage_throw _ _ _ _ _ _ g hl hs hst
  · intro hl hs
    show (dispositionOut cfg env req actions (.throws errH)).result = _
    unfold dispositionOut
    cases hdec : samplingDecision cfg env req actions (.throws errH)
    · rw [dispositionRun_false]
      rfl
    · rw [dispositionRun_true_ok _ _ _ _ _ _ hl hs]
      rfl

/-- Witness for C9's amended statement: concrete runs exercising the
logger-throw branch and the benign-sink branch. -/
theorem wideLogger_sink_error_replaces_witness :
    (wideLogger cfgT
        { envT with loggerFails := some (mkErr ("L") ("l")) } reqT []
        (.throws (mkErr ("H") ("h")))).result
      = Except.error (mkErr ("L") ("l")) ∧
    (wideLogger cfgT envT reqT []
        (.throws (mkErr ("H") ("h")))).result
      = Except.error (mkErr ("H") ("h")) :=
  ⟨(wideLogger_sink_error_replaces cfgT
      { envT with loggerFails := some (mkErr ("L") ("l")) } reqT []
      (mkErr ("H") ("h"))).1 (mkErr ("L") ("l")) rfl (by decide),
   (wideLogger_sink_error_replaces cfgT envT reqT []
      (mkErr ("H") ("h"))).2.2 rfl rfl⟩

end HonoWideLogger
